import Mathlib

/-!
Shallow embedding of `@platformatic/graphql-subscriptions-resume`
(`src/lib/graphql-tools.ts` and `src/lib/subscriptions.ts`).

JavaScript runtime values are modelled by `Value` (with `vundefined` for
`undefined`, kept distinct from `vnull` for `null`).  JavaScript objects
and `Map`s are modelled as insertion-ordered association lists; `mapGet`,
`mapSet`, `mapHas`, `mapDelete` follow the `Map`/object access semantics
used by the source (lookup of the first matching key, `set` overwriting in
place, `delete` removing the entry — JavaScript objects and `Map`s never
hold two entries with the same key, so removing every matching entry is an
equivalent model).

The third-party `graphql` parser (`parse(query)`) is external to the
repository; its outcome is represented by `ParsedQuery`: either
`malformed` (the parser threw a syntax error) or `parsed` with the
document AST, from which the introspector functions of
`graphql-tools.ts` are transcribed.
-/

namespace Gq

/-- JavaScript runtime value: `null`, `undefined`, booleans, numbers
(integers exactly; float literals kept symbolically as their source text,
since IEEE-754 evaluation is outside the scope of this development),
strings, arrays and plain objects. -/
inductive Value where
  | vnull
  | vundefined
  | vbool (b : Bool)
  | vint (n : Int)
  | vfloat (lit : String)
  | vstr (s : String)
  | vlist (xs : List Value)
  | vobj (fields : List (String × Value))

/-- Association-list lookup, modelling `map.get(k)` / `obj[k]`
(JavaScript keys are unique, so the first match is the match). -/
def mapGet {α : Type} : List (String × α) → String → Option α
  | [], _ => none
  | e :: rest, k => if e.1 = k then some e.2 else mapGet rest k

/-- Modelling `map.has(k)` / `k in obj`. -/
def mapHas {α : Type} (m : List (String × α)) (k : String) : Bool :=
  (mapGet m k).isSome

/-- Modelling `map.set(k, v)` / `obj[k] = v`: an existing entry is
overwritten in place (keeping its position), otherwise the new entry is
appended. -/
def mapSet {α : Type} : List (String × α) → String → α → List (String × α)
  | [], k, v => [(k, v)]
  | e :: rest, k, v => if e.1 = k then (k, v) :: rest else e :: mapSet rest k v

/-- Modelling `map.delete(k)` / `delete obj[k]` (all matching entries are
removed; JavaScript maps and objects hold at most one). -/
def mapDelete {α : Type} : List (String × α) → String → List (String × α)
  | [], _ => []
  | e :: rest, k => if e.1 = k then mapDelete rest k else e :: mapDelete rest k

/-- Number of entries stored under a key. -/
def countKey {α : Type} (m : List (String × α)) (k : String) : Nat :=
  m.countP (fun e => e.1 = k)

/-- Nonzero-mantissa test for a GraphQL float literal: the characters
before any exponent marker contain a nonzero digit.  `parseFloat` of a
well-formed float literal is zero exactly when this is false. -/
def floatLitIsNonzero (lit : String) : Bool :=
  (lit.data.takeWhile (fun c => c != 'e' && c != 'E')).any
    (fun c => '1' ≤ c && c ≤ '9')

/-- JavaScript truthiness of a `Value` (`null`, `undefined`, `false`,
`0`, zero floats and the empty string are falsy; arrays and objects are
always truthy). -/
def jsTruthy : Value → Bool
  | .vnull => false
  | .vundefined => false
  | .vbool b => b
  | .vint n => n != 0
  | .vfloat lit => floatLitIsNonzero lit
  | .vstr s => s != ""
  | .vlist _ => true
  | .vobj _ => true

/-- Modelling the JavaScript expression `x || null`: a falsy `x`
(including an absent property read, which yields `undefined`) collapses
to `null`. -/
def jsOrNull (x : Option Value) : Value :=
  match x with
  | some w => if jsTruthy w then w else .vnull
  | none => .vnull

/-- Modelling `s || d` for an optional string `s` (JavaScript treats the
empty string as falsy). -/
def jsStrOr (s : Option String) (d : String) : String :=
  match s with
  | some v => if v = "" then d else v
  | none => d

/-- Hexadecimal digit (lowercase), for JSON control-character escapes. -/
def hexDigit (n : Nat) : Char :=
  if n < 10 then Char.ofNat ('0'.toNat + n) else Char.ofNat ('a'.toNat + (n - 10))

/-- JSON escape of one character, as produced by `JSON.stringify`. -/
def jsonEscapeChar (c : Char) : String :=
  if c = '"' then "\\\""
  else if c = '\\' then "\\\\"
  else if c = '\n' then "\\n"
  else if c = '\r' then "\\r"
  else if c = '\t' then "\\t"
  else if c.toNat = 8 then "\\b"
  else if c.toNat = 12 then "\\f"
  else if c.toNat < 32 then
    "\\u" ++ String.mk [hexDigit (c.toNat / 4096 % 16), hexDigit (c.toNat / 256 % 16),
      hexDigit (c.toNat / 16 % 16), hexDigit (c.toNat % 16)]
  else String.singleton c

/-- JSON string literal for `s`, as produced by `JSON.stringify`. -/
def jsonQuote (s : String) : String :=
  "\"" ++ String.join (s.data.map jsonEscapeChar) ++ "\""

mutual

/-- Modelling `JSON.stringify(v)`: `none` is the JavaScript `undefined`
result (for `undefined` input).  Inside arrays `undefined` serializes as
`null`; inside objects entries with `undefined` values are dropped.
Symbolic float literals render as their (numeric) source text. -/
def jsonStr : Value → Option String
  | .vundefined => none
  | .vnull => some "null"
  | .vbool b => some (if b then "true" else "false")
  | .vint n => some (toString n)
  | .vfloat lit => some lit
  | .vstr s => some (jsonQuote s)
  | .vlist xs => some ("[" ++ String.intercalate "," (jsonStrList xs) ++ "]")
  | .vobj fs => some ("\x7b" ++ String.intercalate "," (jsonStrObj fs) ++ "\x7d")

/-- Array elements of `JSON.stringify` (undefined elements render as `null`). -/
def jsonStrList : List Value → List String
  | [] => []
  | x :: xs => (jsonStr x).getD "null" :: jsonStrList xs

/-- Object members of `JSON.stringify` (undefined-valued entries are dropped). -/
def jsonStrObj : List (String × Value) → List String
  | [] => []
  | (k, v) :: fs =>
    (match jsonStr v with
     | some w => [jsonQuote k ++ ":" ++ w]
     | none => []) ++ jsonStrObj fs

end

/-- Modelling a template-literal splice of `JSON.stringify(v)` (the string
interpolation in `buildRecoveryQuery`); `undefined` coerces to the text
`undefined`. -/
def jsonTmpl (v : Value) : String :=
  (jsonStr v).getD "undefined"

/-!
GraphQL AST, as delivered by the external `graphql` parser and consumed
by `graphql-tools.ts`.
-/

/-- Argument value node of the GraphQL AST.  Numeric literals carry their
source text (`value.value`); `otherValue` stands for any node kind not
named in the `switch` of `extractArgumentValue`. -/
inductive ValueNode where
  | intValue (lit : String)
  | floatValue (lit : String)
  | stringValue (s : String)
  | booleanValue (b : Bool)
  | nullValue
  | listValue (vs : List ValueNode)
  | objectValue (fields : List (String × ValueNode))
  | variableNode (name : String)
  | otherValue

/-- Selection node: a field (with optional alias, arguments and nested
selection set), a fragment spread, or an inline fragment (its type
condition is never read by the source and is omitted). -/
inductive SelectionNode where
  | field (aliasName : Option String) (name : String)
      (arguments : List (String × ValueNode)) (selectionSet : Option (List SelectionNode))
  | fragmentSpread (name : String)
  | inlineFragment (selectionSet : List SelectionNode)

/-- Fragment definition: name and selection set. -/
structure FragmentDefinitionNode where
  name : String
  selectionSet : List SelectionNode

/-- Operation kind of an `OperationDefinition`. -/
inductive OperationType where
  | query
  | mutation
  | subscription

/-- Operation definition: kind and root selection set. -/
structure OperationDefinitionNode where
  operation : OperationType
  selectionSet : List SelectionNode

/-- Top-level document definition (`otherDefinition` stands for any
definition kind that is neither an operation nor a fragment). -/
inductive DefinitionNode where
  | operationDefinition (op : OperationDefinitionNode)
  | fragmentDefinition (f : FragmentDefinitionNode)
  | otherDefinition

/-- Outcome of the external `parse(query)` call: either the parser threw
a syntax error, or it produced a document (its definition list). -/
inductive ParsedQuery where
  | malformed
  | parsed (definitions : List DefinitionNode)

/-- Modelling `parseInt(text, 10)` on GraphQL `IntValue` literal text
(an optional minus sign followed by decimal digits).  The source receives
the parse as a JavaScript number; integer values are modelled exactly
(the 2^53 precision loss of JavaScript numbers is out of scope). -/
def parseIntLit (s : String) : Int :=
  match s.data with
  | '-' :: ds => -(ds.foldl (fun acc c => acc * 10 + (c.toNat - '0'.toNat)) 0 : Nat)
  | ds => (ds.foldl (fun acc c => acc * 10 + (c.toNat - '0'.toNat)) 0 : Nat)

/-- Modelling `extractVariable` (`graphql-tools.ts` lines 171-174):
`vars[name] !== undefined ? vars[name] : null`. -/
def extractVariable (name : String) (vars : List (String × Value)) : Value :=
  match mapGet vars name with
  | some .vundefined => .vnull
  | some v => v
  | none => .vnull

mutual

/-- Modelling `extractArgumentValue` (`graphql-tools.ts` lines 76-97):
the `switch` over the AST node kind.  `parseIntLit` plays `parseInt(text,
10)` on the (well-formed) integer literal text; float literals stay
symbolic (`parseFloat` is IEEE-754 and outside this development). -/
def extractArgumentValue : ValueNode → List (String × Value) → Value
  | .intValue lit, _ => .vint (parseIntLit lit)
  | .floatValue lit, _ => .vfloat lit
  | .stringValue s, _ => .vstr s
  | .booleanValue b, _ => .vbool b
  | .nullValue, _ => .vnull
  | .listValue vs, vars => .vlist (extractArgumentValueList vs vars)
  | .objectValue fs, vars => .vobj (extractObjectArgumentsGo fs vars [])
  | .variableNode n, vars => extractVariable n vars
  | .otherValue, _ => .vnull

/-- Element-wise extraction for `ListValue` nodes (`value.values.map(...)`). -/
def extractArgumentValueList : List ValueNode → List (String × Value) → List Value
  | [], _ => []
  | v :: vs, vars => extractArgumentValue v vars :: extractArgumentValueList vs vars

/-- Modelling the loop of `extractObjectArguments` (`graphql-tools.ts`
lines 99-105): `obj[field.name.value] = extractArgumentValue(...)` in
field order (a repeated key overwrites in place, as object assignment
does). -/
def extractObjectArgumentsGo : List (String × ValueNode) → List (String × Value) →
    List (String × Value) → List (String × Value)
  | [], _, acc => acc
  | (k, vn) :: fs, vars, acc =>
    extractObjectArgumentsGo fs vars (mapSet acc k (extractArgumentValue vn vars))

end

/-- Modelling `extractObjectArguments` (`graphql-tools.ts` lines 99-105). -/
def extractObjectArguments (fields : List (String × ValueNode))
    (vars : List (String × Value)) : List (String × Value) :=
  extractObjectArgumentsGo fields vars []

/-- Modelling `extractArguments` (`graphql-tools.ts` lines 63-73):
`result[name] = extractArgumentValue(arg.value, vars)` per argument
in source order. -/
def extractArguments (args : List (String × ValueNode))
    (vars : List (String × Value)) : List (String × Value) :=
  args.foldl (fun acc a => mapSet acc a.1 (extractArgumentValue a.2 vars)) []

mutual

/-- Modelling the selection walk of `extractFields` over one selection
list (`graphql-tools.ts` lines 118-148): leaf fields are collected by
name, `__typename` is skipped, fields with a nested selection set
contribute their nested leaves instead, fragment spreads contribute via
`resolveSpread`, inline fragments contribute their inner fields. -/
def fieldsOfSelections (resolveSpread : String → List String) :
    List SelectionNode → List String
  | [] => []
  | s :: rest => fieldsOfSelection resolveSpread s ++ fieldsOfSelections resolveSpread rest

/-- Contribution of a single selection to `fieldsOfSelections`. -/
def fieldsOfSelection (resolveSpread : String → List String) :
    SelectionNode → List String
  | .field _ name _ sub =>
    if name = "__typename" then []
    else
      match sub with
      | none => [name]
      | some subSels => fieldsOfSelections resolveSpread subSels
  | .fragmentSpread n => resolveSpread n
  | .inlineFragment subSels => fieldsOfSelections resolveSpread subSels

end

/-- Fragment-spread resolution of `extractFields` (`graphql-tools.ts`
lines 133-142): look the fragment up by name (an unknown fragment
contributes nothing) and recurse into its selection set.  `fuel` bounds
the spread-resolution depth and models the finite JavaScript call stack:
the source recurses unboundedly on (invalid) cyclic fragment spreads and
would blow the stack; every acyclic document is computed exactly for any
sufficiently large fuel. -/
def resolveSpreadFuel (frags : List FragmentDefinitionNode) : Nat → String → List String
  | 0, _ => []
  | fuel + 1, n =>
    match frags.find? (fun fd => fd.name = n) with
    | none => []
    | some fd => fieldsOfSelections (resolveSpreadFuel frags fuel) fd.selectionSet

/-- Modelling `extractFields` (`graphql-tools.ts` lines 108-151),
including the `undefined` selection-set guard. -/
def extractFields (fuel : Nat) (selectionSet : Option (List SelectionNode))
    (frags : List FragmentDefinitionNode) : List String :=
  match selectionSet with
  | none => []
  | some sels => fieldsOfSelections (resolveSpreadFuel frags fuel) sels

/-- Normalized query description returned by the introspector
(`graphql-tools.ts` lines 4-9).  The implementation always assigns
`params` (possibly empty) and assigns `alias` from the AST (possibly
`undefined`); the extra `vars` member of the result object is not
part of the declared type and is never read, so it is not modelled. -/
structure SubscriptionInfo where
  name : String
  fields : List String
  aliasName : Option String
  params : List (String × Value)

/-- The fragment-definition filter of `extractSubscriptionQueryInfo`
(`graphql-tools.ts` lines 40-42): every fragment definition of the whole
document. -/
def fragmentsOf (defs : List DefinitionNode) : List FragmentDefinitionNode :=
  defs.filterMap (fun d =>
    match d with
    | .fragmentDefinition f => some f
    | _ => none)

/-- Predicate of the `find` call in `extractSubscriptionQueryInfo`:
an operation definition whose operation is `subscription`. -/
def isSubscriptionOperation : DefinitionNode → Bool
  | .operationDefinition op =>
    match op.operation with
    | .subscription => true
    | _ => false
  | _ => false

/-- Modelling `extractSubscriptionQueryInfo` (`graphql-tools.ts` lines
11-60).  `Except.error ()` is the `throw new Error('Error parsing
GraphQL query', ...)` raised when `parse` failed or the body threw;
`Except.ok none` is the `return` for a document without a subscription
operation.  The cast `selections[0] as FieldNode` is duck typing: an
empty root selection set makes `subscriptionField.alias` throw (caught
and rethrown); a fragment-spread root has a `name` but no `alias`,
`arguments` or `selectionSet` properties, so it yields that name with no
alias, empty params and no fields; an inline-fragment root has no `name`
property, so `subscriptionField.name.value` throws (caught and
rethrown). -/
def extractSubscriptionQueryInfo (fuel : Nat) (query : ParsedQuery)
    (vars : Option (List (String × Value))) : Except Unit (Option SubscriptionInfo) :=
  match query with
  | .malformed => .error ()
  | .parsed defs =>
    match defs.find? isSubscriptionOperation with
    | none => .ok none
    | some d =>
      match d with
      | .operationDefinition op =>
        let frags := fragmentsOf defs
        match op.selectionSet with
        | [] => .error ()
        | .field al name args ss :: _ =>
          .ok (some { name := name, fields := extractFields fuel ss frags,
                      aliasName := al, params := extractArguments args (vars.getD []) })
        | .fragmentSpread n :: _ =>
          .ok (some { name := n, fields := [], aliasName := none, params := [] })
        | .inlineFragment _ :: _ => .error ()
      | _ => .ok none

/-- Result-payload extraction (`graphql-tools.ts` lines 158-169): the
first key of the payload object and the value stored under it.  For an
empty payload `Object.keys(result)[0]` is `undefined` and the registry's
`Map.has(undefined)` check fails; `none` models that nothing-to-match
outcome. -/
def extractSubscriptionResultInfo (result : List (String × Value)) :
    Option (String × Value) :=
  match result with
  | [] => none
  | (k, _) :: _ => some (k, (mapGet result k).getD .vundefined)

/-!
Subscription registry (`src/lib/subscriptions.ts`).
-/

/-- Configuration for one subscription name (`SubscriptionOptions` of
`subscriptions.ts` lines 185-189): the key field and optional fixed
arguments. -/
structure SubscriptionOptions where
  name : String
  key : String
  args : Option (List (String × Value))

/-- Entry of `subscriptionsConfig` (`subscriptions.ts` lines 241-244). -/
structure SubscriptionConfigEntry where
  key : String
  args : Option (List (String × Value))

/-- Tracked subscription (`Subscription` of `subscriptions.ts` lines
202-213).  `aliasName` is the source's `alias` property. -/
structure Subscription where
  options : SubscriptionOptions
  name : String
  fields : List String
  params : Option (List (String × Value))
  lastValue : Value
  aliasName : Option String
  injectedKey : Bool
  id : Option String
  type : String

/-- Per-client state (`ClientState` of `subscriptions.ts` lines 196-200). -/
structure ClientState where
  init : Value
  subscriptions : List (String × Subscription)
  ids : List (String × String)

/-- Registry state (`StatefulSubscriptions` fields, `subscriptions.ts`
lines 240-244). -/
structure StatefulSubscriptions where
  clients : List (String × ClientState)
  subscriptionsConfig : List (String × SubscriptionConfigEntry)

/-- Modelling `createClientState` (`subscriptions.ts` lines 261-267):
`init` starts as `undefined`. -/
def createClientState : ClientState :=
  { init := .vundefined, subscriptions := [], ids := [] }

/-- Modelling the constructor (`subscriptions.ts` lines 247-259):
store each configured subscription under its name (a repeated name
overwrites). -/
def makeStatefulSubscriptions (options : List SubscriptionOptions) : StatefulSubscriptions :=
  { clients := [],
    subscriptionsConfig :=
      options.foldl (fun cfg o => mapSet cfg o.name { key := o.key, args := o.args }) [] }

/-- The lazily-created-client pattern shared by `addSubscriptionInit` and
`addSubscription` (`subscriptions.ts` lines 270-274 and 280-284). -/
def ensureClient (st : StatefulSubscriptions) (clientId : String) : StatefulSubscriptions :=
  match mapGet st.clients clientId with
  | some _ => st
  | none => { st with clients := mapSet st.clients clientId createClientState }

/-- The `client` local variable of those methods: the existing client
state, or the freshly created empty one. -/
def clientStateOf (st : StatefulSubscriptions) (clientId : String) : ClientState :=
  (mapGet st.clients clientId).getD createClientState

/-- Modelling `addSubscriptionInit` (`subscriptions.ts` lines 269-277):
store the connection-init payload, overwriting any prior value. -/
def addSubscriptionInit (st : StatefulSubscriptions) (clientId : String)
    (payload : Value) : StatefulSubscriptions :=
  let st1 := ensureClient st clientId
  let client := clientStateOf st clientId
  { st1 with clients := mapSet st1.clients clientId ({ client with init := payload }) }

/-- The initial `lastValue` of a new tracked subscription
(`subscriptions.ts` lines 333-335): `(variables && 'lastValue' in
variables) ? variables.lastValue : s.params?.[config.key] || null`. -/
def initialLastValue (s : SubscriptionInfo) (config : SubscriptionConfigEntry)
    (vars : Option (List (String × Value))) : Value :=
  match vars with
  | some vs =>
    if mapHas vs "lastValue" then (mapGet vs "lastValue").getD .vundefined
    else jsOrNull (mapGet s.params config.key)
  | none => jsOrNull (mapGet s.params config.key)

/-- The subscription object built by `addSubscription` (`subscriptions.ts`
lines 324-355) once the config was found: missing key field injected at
the end of `fields` with `injectedKey` flagged, `alias` and `id` stored
only when truthy, `type` defaulted to `start`. -/
def trackedSubscriptionOf (s : SubscriptionInfo) (config : SubscriptionConfigEntry)
    (vars : Option (List (String × Value)))
    (subscriptionId subscriptionType : Option String) : Subscription :=
  let keyIncluded := s.fields.contains config.key
  { options := { name := s.name, key := config.key, args := config.args },
    name := s.name,
    fields := if keyIncluded then s.fields else s.fields ++ [config.key],
    params := some s.params,
    lastValue := initialLastValue s config vars,
    aliasName :=
      match s.aliasName with
      | some a => if a = "" then none else some a
      | none => none,
    injectedKey := !keyIncluded,
    id :=
      match subscriptionId with
      | some i => if i = "" then none else some i
      | none => none,
    type := jsStrOr subscriptionType "start" }

/-- The `ids` index after tracking a subscription (`subscriptions.ts`
lines 351-354): indexed only when a (truthy) transport id was supplied. -/
def idsAfterTracking (ids : List (String × String)) (subscriptionId : Option String)
    (subscriptionName : String) : List (String × String) :=
  match subscriptionId with
  | some i => if i = "" then ids else mapSet ids i subscriptionName
  | none => ids

/-- Modelling `addSubscription` (`subscriptions.ts` lines 279-357).
The `try/catch` around `extractSubscriptionQueryInfo` logs parse errors
and returns (the `Except.error` branch); a non-subscription document
(`Except.ok none`) returns; an identity already tracked returns; an
unconfigured name returns.  Otherwise the new subscription built by
`trackedSubscriptionOf` is stored under the identity `s.alias || s.name`
and the transport id is indexed by `idsAfterTracking`.  The source always
receives a `params` object from the introspector, so the `if (s.params)`
guard always stores it. -/
def addSubscription (fuel : Nat) (st : StatefulSubscriptions) (clientId : String)
    (query : ParsedQuery) (vars : Option (List (String × Value)))
    (subscriptionId : Option String) (subscriptionType : Option String) :
    StatefulSubscriptions :=
  let st1 := ensureClient st clientId
  let client := clientStateOf st clientId
  match extractSubscriptionQueryInfo fuel query vars with
  | .error _ => st1
  | .ok none => st1
  | .ok (some s) =>
    let subscriptionName := jsStrOr s.aliasName s.name
    if mapHas client.subscriptions subscriptionName then st1
    else
      match mapGet st1.subscriptionsConfig s.name with
      | none => st1
      | some config =>
        let subscription := trackedSubscriptionOf s config vars subscriptionId subscriptionType
        let client2 : ClientState :=
          { client with
              subscriptions := mapSet client.subscriptions subscriptionName subscription,
              ids := idsAfterTracking client.ids subscriptionId subscriptionName }
        { st1 with clients := mapSet st1.clients clientId client2 }

/-- The `value !== undefined` test of the two guards in
`updateSubscriptionState`. -/
def isUndefined : Value → Bool
  | .vundefined => true
  | _ => false

/-- The property read `r.data[config.key]`: `none` models the `TypeError`
thrown when `data` is `null` or `undefined`; a read on another primitive
yields `undefined` (string index and `length` properties are not
modelled, as no key field is ever one of them). -/
def dataGetField : Value → String → Option Value
  | .vnull, _ => none
  | .vundefined, _ => none
  | .vobj fs, k => some ((mapGet fs k).getD .vundefined)
  | _, _ => some .vundefined

/-- The strip step `const dataWithoutKey = { ...r.data }; delete
dataWithoutKey[config.key]`: a fresh shallow copy of the data object
without the key entry (only reached when `data` is an object, see
`dataGetField`). -/
def copyWithoutField : Value → String → Value
  | .vobj fs, k => .vobj (mapDelete fs k)
  | v, _ => v

/-- The write-back `subscription.lastValue = keyValue` of
`updateSubscriptionState` (`subscriptions.ts` lines 383-387), seen
through the client map: the tracked subscription under the result name
gets its `lastValue` overwritten. -/
def stateWithLastValue (st : StatefulSubscriptions) (clientId : String) (client : ClientState)
    (rn : String) (subscription : Subscription) (kv : Value) : StatefulSubscriptions :=
  let subscription2 := { subscription with lastValue := kv }
  let client2 : ClientState :=
    { client with subscriptions := mapSet client.subscriptions rn subscription2 }
  { st with clients := mapSet st.clients clientId client2 }

/-- Modelling `updateSubscriptionState` (`subscriptions.ts` lines
359-399).  The result pair is (new registry state, the caller's payload
after the in-place mutation); `none` is the uncaught `TypeError` of
`r.data[config.key]` on a `null`/`undefined` data value.  An unknown
client, an empty payload, an untracked result name or an unconfigured
tracked name leave everything unchanged.  When the key value is
`undefined` the source neither writes `lastValue` nor strips (both
guards are `keyValue !== undefined`), so the state is returned as is;
otherwise `lastValue` is overwritten and, when the key was injected, the
payload's root entry is replaced by a copy of the data object without
the key field. -/
def updateSubscriptionState (st : StatefulSubscriptions) (clientId : String)
    (result : List (String × Value)) :
    Option (StatefulSubscriptions × List (String × Value)) :=
  match mapGet st.clients clientId with
  | none => some (st, result)
  | some client =>
    match extractSubscriptionResultInfo result with
    | none => some (st, result)
    | some r =>
      match mapGet client.subscriptions r.1 with
      | none => some (st, result)
      | some subscription =>
        match mapGet st.subscriptionsConfig subscription.name with
        | none => some (st, result)
        | some config =>
          match dataGetField r.2 config.key with
          | none => none
          | some keyValue =>
            if isUndefined keyValue then some (st, result)
            else if subscription.injectedKey then
              some (stateWithLastValue st clientId client r.1 subscription keyValue,
                mapSet result r.1 (copyWithoutField r.2 config.key))
            else
              some (stateWithLastValue st clientId client r.1 subscription keyValue, result)

/-- Modelling `buildRecoveryQuery` (`subscriptions.ts` lines 220-237):
alias prefix when an alias was recorded, the key argument first when
`lastValue` is neither `null` nor `undefined`, then the fixed args in
configured order, each value through `JSON.stringify`, the argument list
parenthesized only when non-empty, and the tracked fields joined by a
comma. -/
def buildRecoveryQuery (subscription : Subscription) : String :=
  let aliasPart :=
    match subscription.aliasName with
    | some a => if a = "" then "" else a ++ ": "
    | none => ""
  let args0 : List String :=
    match subscription.lastValue with
    | .vnull => []
    | .vundefined => []
    | v => [subscription.options.key ++ ": " ++ jsonTmpl v]
  let args := args0 ++
    (match subscription.options.args with
     | some fixedArgs => fixedArgs.map (fun kv => kv.1 ++ ": " ++ jsonTmpl kv.2)
     | none => [])
  "subscription \x7b " ++ aliasPart ++ subscription.options.name ++
    (if args.length > 0 then "(" ++ String.intercalate ", " args ++ ")" else "") ++
    " \x7b " ++ String.intercalate ", " subscription.fields ++ " \x7d \x7d"

/-- One `target.send(JSON.stringify(...))` of `restoreSubscriptions`,
modelled structurally: the connection-init message `{ type:
'connection_init', payload }` or an operation message `{ id, type,
payload: { query } }`. -/
inductive SentMessage where
  | connectionInit (payload : Value)
  | operationMessage (id : Option String) (type : String) (query : String)

/-- Modelling `restoreSubscriptions` (`subscriptions.ts` lines 402-426)
as the sequence of messages sent through the target: nothing for an
unknown client; otherwise one connection-init carrying the stored init
payload, then one message per tracked subscription in map-insertion
order (no condition on `lastValue`), with its recorded id and type and
its recovery query. -/
def restoreSubscriptions (st : StatefulSubscriptions) (clientId : String) :
    List SentMessage :=
  match mapGet st.clients clientId with
  | none => []
  | some client =>
    SentMessage.connectionInit client.init ::
      client.subscriptions.map
        (fun e => SentMessage.operationMessage e.2.id e.2.type (buildRecoveryQuery e.2))

/-- Modelling `removeSubscription` (`subscriptions.ts` lines 428-439);
the `if (!subscriptionId)` and `if (!subscriptionName)` guards treat the
empty string as falsy. -/
def removeSubscription (st : StatefulSubscriptions) (clientId : String)
    (subscriptionId : String) : StatefulSubscriptions :=
  if subscriptionId = "" then st
  else
    match mapGet st.clients clientId with
    | none => st
    | some client =>
      match mapGet client.ids subscriptionId with
      | none => st
      | some subscriptionName =>
        if subscriptionName = "" then st
        else
          let client2 : ClientState :=
            { client with
                subscriptions := mapDelete client.subscriptions subscriptionName,
                ids := mapDelete client.ids subscriptionId }
          { st with clients := mapSet st.clients clientId client2 }

/-- Modelling `removeAllSubscriptions` (`subscriptions.ts` lines
441-447): clear both maps, keeping the client state itself. -/
def removeAllSubscriptions (st : StatefulSubscriptions) (clientId : String) :
    StatefulSubscriptions :=
  match mapGet st.clients clientId with
  | none => st
  | some client =>
    let client2 : ClientState := { client with subscriptions := [], ids := [] }
    { st with clients := mapSet st.clients clientId client2 }

/-- Configured-descriptor invariant: every tracked subscription of every
client has a configured descriptor under its root name. -/
def ConfiguredInv (st : StatefulSubscriptions) : Prop :=
  ∀ e ∈ st.clients, ∀ f ∈ e.2.subscriptions, mapHas st.subscriptionsConfig f.2.name = true

/-!
Concrete inputs used to exercise the model (the descriptor, documents and
states of the specification's examples).
-/

/-- Descriptor set `[{ name: 'onItems', key: 'offset' }]`. -/
def exOptions : List SubscriptionOptions :=
  [{ name := "onItems", key := "offset", args := none }]

/-- Registry freshly constructed from `exOptions`. -/
def exSt0 : StatefulSubscriptions := makeStatefulSubscriptions exOptions

/-- Leaf selection `id`. -/
def exSelId : SelectionNode := .field none "id" [] none

/-- Leaf selection `offset`. -/
def exSelOffset : SelectionNode := .field none "offset" [] none

/-- Leaf selection `data`. -/
def exSelData : SelectionNode := .field none "data" [] none

/-- Document of `subscription \x7b onItems \x7b id offset data \x7d \x7d`. -/
def exDocFull : ParsedQuery :=
  .parsed [.operationDefinition
    ⟨.subscription, [.field none "onItems" [] (some [exSelId, exSelOffset, exSelData])]⟩]

/-- Document of `subscription \x7b onItems \x7b id \x7d \x7d` (key field omitted). -/
def exDocNoKey : ParsedQuery :=
  .parsed [.operationDefinition
    ⟨.subscription, [.field none "onItems" [] (some [exSelId])]⟩]

/-- Document of `subscription \x7b onItems(offset: 0) \x7b id offset \x7d \x7d`. -/
def exDocZero : ParsedQuery :=
  .parsed [.operationDefinition
    ⟨.subscription, [.field none "onItems" [("offset", .intValue "0")]
      (some [exSelId, exSelOffset])]⟩]

/-- Document of `subscription \x7b onItems(offset: 5) \x7b id offset \x7d \x7d`. -/
def exDocFive : ParsedQuery :=
  .parsed [.operationDefinition
    ⟨.subscription, [.field none "onItems" [("offset", .intValue "5")]
      (some [exSelId, exSelOffset])]⟩]

/-- Document of `subscription \x7b Feed: onItems \x7b id offset \x7d \x7d`. -/
def exDocAlias : ParsedQuery :=
  .parsed [.operationDefinition
    ⟨.subscription, [.field (some "Feed") "onItems" [] (some [exSelId, exSelOffset])]⟩]

/-- Registry after registering `exDocFull` for client `c`. -/
def exStFull : StatefulSubscriptions := addSubscription 10 exSt0 "c" exDocFull none none none

/-- Registry after registering `exDocNoKey` for client `c` (key injected). -/
def exStNoKey : StatefulSubscriptions := addSubscription 10 exSt0 "c" exDocNoKey none none none

/-- Registry after registering `exDocAlias` for client `c`. -/
def exStAlias : StatefulSubscriptions := addSubscription 10 exSt0 "c" exDocAlias none none none

/-- Config entry for key `offset` with no fixed args. -/
def exCfgOffset : SubscriptionConfigEntry := { key := "offset", args := none }

/-- Introspected info of `exDocZero` (params carry `offset = 0`). -/
def exInfoZero : SubscriptionInfo :=
  { name := "onItems", fields := ["id", "offset"], aliasName := none,
    params := [("offset", .vint 0)] }

/-- Introspected info of `exDocFive` (params carry `offset = 5`). -/
def exInfoFive : SubscriptionInfo :=
  { name := "onItems", fields := ["id", "offset"], aliasName := none,
    params := [("offset", .vint 5)] }

/-- Descriptor with fixed args (`filter`, `limit`) from the
specification's serialization example. -/
def exOptsFixed : SubscriptionOptions :=
  { name := "onItems", key := "offset",
    args := some [("filter", .vstr "important"), ("limit", .vint 10)] }

/-- Tracked subscription with `lastValue = 42` under key `offset` and the
fixed args of `exOptsFixed`. -/
def exSubFixed : Subscription :=
  { options := exOptsFixed, name := "onItems", fields := ["id", "offset", "data"],
    params := none, lastValue := .vint 42, aliasName := none, injectedKey := false,
    id := none, type := "start" }

/-!
Specification-shaped restatement of the recovery-query format, for the
refinement claim about `buildRecoveryQuery`.
-/

/-- The recovery-query shape as the specification words it: `subscription
\x7b ` then the alias prefix exactly when an alias was recorded, then the
root name, then a parenthesized argument list present only when at least
one argument is emitted — the key argument first and only when
`lastValue` is neither null nor absent, then each fixed argument in
configured order, all `, `-separated — then ` \x7b `, the tracked fields
joined by `, `, and ` \x7d \x7d`. -/
def claimRecoveryQuery (s : Subscription) : String :=
  let aliasPart :=
    match s.aliasName with
    | some a => a ++ ": "
    | none => ""
  let keyArg : List String :=
    match s.lastValue with
    | .vnull => []
    | .vundefined => []
    | v => [s.options.key ++ ": " ++ jsonTmpl v]
  let fixedArgs := (s.options.args.getD []).map (fun kv => kv.1 ++ ": " ++ jsonTmpl kv.2)
  let args := keyArg ++ fixedArgs
  "subscription \x7b " ++ aliasPart ++ s.options.name ++
    (if args.isEmpty then "" else "(" ++ String.intercalate ", " args ++ ")") ++
    " \x7b " ++ String.intercalate ", " s.fields ++ " \x7d \x7d"

/-!
Association-list and registry lemmas.
-/

theorem mapGet_mapSet_self {α : Type} (m : List (String × α)) (k : String) (v : α) :
    mapGet (mapSet m k v) k = some v := by
  induction m with
  | nil => simp [mapGet, mapSet]
  | cons e rest ih =>
    by_cases h : e.1 = k
    · simp [mapGet, mapSet, h]
    · simp [mapGet, mapSet, h, ih]

theorem mapGet_mapSet_ne {α : Type} (m : List (String × α)) (k k' : String) (v : α)
    (h : k' ≠ k) : mapGet (mapSet m k v) k' = mapGet m k' := by
  induction m with
  | nil => simp [mapGet, mapSet, Ne.symm h]
  | cons e rest ih =>
    by_cases he : e.1 = k
    · subst he
      simp [mapGet, mapSet, Ne.symm h]
    · simp [mapGet, mapSet, he, ih]

theorem mapHas_mapSet_self {α : Type} (m : List (String × α)) (k : String) (v : α) :
    mapHas (mapSet m k v) k = true := by
  simp [mapHas, mapGet_mapSet_self]

theorem countKey_of_not_has {α : Type} (m : List (String × α)) (k : String)
    (h : mapHas m k = false) : countKey m k = 0 := by
  induction m with
  | nil => simp [countKey]
  | cons e rest ih =>
    by_cases he : e.1 = k
    · simp [mapHas, mapGet, he] at h
    · have hrest : mapHas rest k = false := by
        simpa [mapHas, mapGet, he] using h
      simpa [countKey, List.countP_cons, he] using ih hrest

theorem countKey_mapSet_of_not_has {α : Type} (m : List (String × α)) (k : String) (v : α)
    (h : mapHas m k = false) : countKey (mapSet m k v) k = 1 := by
  induction m with
  | nil => simp [countKey, mapSet]
  | cons e rest ih =>
    by_cases he : e.1 = k
    · simp [mapHas, mapGet, he] at h
    · have hrest : mapHas rest k = false := by
        simpa [mapHas, mapGet, he] using h
      simpa [countKey, mapSet, he, List.countP_cons] using ih hrest

theorem mem_mapSet {α : Type} (m : List (String × α)) (k : String) (v : α)
    (e : String × α) (h : e ∈ mapSet m k v) : e ∈ m ∨ e = (k, v) := by
  induction m with
  | nil => simpa [mapSet] using h
  | cons f rest ih =>
    by_cases hf : f.1 = k
    · simp only [mapSet, hf, if_true, List.mem_cons] at h
      rcases h with h | h
      · right; exact h
      · left; exact List.mem_cons_of_mem _ h
    · simp only [mapSet, hf, if_false, List.mem_cons] at h
      rcases h with h | h
      · left; exact h ▸ List.mem_cons_self _ _
      · rcases ih h with h' | h'
        · left; exact List.mem_cons_of_mem _ h'
        · right; exact h'

theorem mapGet_mapDelete_self {α : Type} (m : List (String × α)) (k : String) :
    mapGet (mapDelete m k) k = none := by
  induction m with
  | nil => simp [mapGet, mapDelete]
  | cons e rest ih =>
    by_cases he : e.1 = k
    · simp [mapDelete, he, ih]
    · simp [mapDelete, mapGet, he, ih]

theorem mapGet_mapDelete_ne {α : Type} (m : List (String × α)) (k k' : String)
    (h : k' ≠ k) : mapGet (mapDelete m k) k' = mapGet m k' := by
  induction m with
  | nil => simp [mapDelete]
  | cons e rest ih =>
    by_cases he : e.1 = k
    · subst he
      simp [mapDelete, mapGet, Ne.symm h, ih]
    · simp [mapDelete, mapGet, he, ih]

theorem mem_mapDelete {α : Type} (m : List (String × α)) (k : String)
    (e : String × α) (h : e ∈ mapDelete m k) : e ∈ m := by
  induction m with
  | nil => simp [mapDelete] at h
  | cons f rest ih =>
    by_cases hf : f.1 = k
    · simp only [mapDelete, hf, if_true] at h
      exact List.mem_cons_of_mem _ (ih h)
    · simp only [mapDelete, hf, if_false, List.mem_cons] at h
      rcases h with h | h
      · exact h ▸ List.mem_cons_self _ _
      · exact List.mem_cons_of_mem _ (ih h)

theorem clients_ensureClient_get (st : StatefulSubscriptions) (clientId : String) :
    mapGet (ensureClient st clientId).clients clientId = some (clientStateOf st clientId) := by
  unfold ensureClient clientStateOf
  cases h : mapGet st.clients clientId with
  | none => simp [h, mapGet_mapSet_self]
  | some c => simp [h]

theorem ensureClient_of_some (st : StatefulSubscriptions) (clientId : String)
    (c : ClientState) (h : mapGet st.clients clientId = some c) :
    ensureClient st clientId = st := by
  unfold ensureClient
  simp [h]

theorem config_ensureClient (st : StatefulSubscriptions) (clientId : String) :
    (ensureClient st clientId).subscriptionsConfig = st.subscriptionsConfig := by
  unfold ensureClient
  cases h : mapGet st.clients clientId <;> simp

theorem clients_ensureClient_ne (st : StatefulSubscriptions) (clientId cid : String)
    (h : cid ≠ clientId) :
    mapGet (ensureClient st clientId).clients cid = mapGet st.clients cid := by
  unfold ensureClient
  cases hc : mapGet st.clients clientId with
  | none => simp [mapGet_mapSet_ne _ _ _ _ h]
  | some c => simp

theorem ensureClient_idem (st : StatefulSubscriptions) (clientId : String) :
    ensureClient (ensureClient st clientId) clientId = ensureClient st clientId := by
  apply ensureClient_of_some _ _ (clientStateOf st clientId)
  exact clients_ensureClient_get st clientId

theorem clientStateOf_ensureClient (st : StatefulSubscriptions) (clientId : String) :
    clientStateOf (ensureClient st clientId) clientId = clientStateOf st clientId := by
  unfold clientStateOf
  rw [clients_ensureClient_get]
  rfl

theorem addSubscription_error (fuel : Nat) (st : StatefulSubscriptions) (clientId : String)
    (q : ParsedQuery) (vars : Option (List (String × Value))) (sid sty : Option String)
    (h : extractSubscriptionQueryInfo fuel q vars = .error ()) :
    addSubscription fuel st clientId q vars sid sty = ensureClient st clientId := by
  unfold addSubscription
  rw [h]

theorem addSubscription_notSubscription (fuel : Nat) (st : StatefulSubscriptions)
    (clientId : String) (q : ParsedQuery) (vars : Option (List (String × Value)))
    (sid sty : Option String)
    (h : extractSubscriptionQueryInfo fuel q vars = .ok none) :
    addSubscription fuel st clientId q vars sid sty = ensureClient st clientId := by
  unfold addSubscription
  rw [h]

theorem addSubscription_tracked (fuel : Nat) (st : StatefulSubscriptions) (clientId : String)
    (q : ParsedQuery) (vars : Option (List (String × Value))) (sid sty : Option String)
    (s : SubscriptionInfo)
    (h : extractSubscriptionQueryInfo fuel q vars = .ok (some s))
    (ht : mapHas (clientStateOf st clientId).subscriptions (jsStrOr s.aliasName s.name) = true) :
    addSubscription fuel st clientId q vars sid sty = ensureClient st clientId := by
  unfold addSubscription
  rw [h]
  simp [ht]

theorem addSubscription_unconfigured (fuel : Nat) (st : StatefulSubscriptions)
    (clientId : String) (q : ParsedQuery) (vars : Option (List (String × Value)))
    (sid sty : Option String) (s : SubscriptionInfo)
    (h : extractSubscriptionQueryInfo fuel q vars = .ok (some s))
    (ht : mapHas (clientStateOf st clientId).subscriptions (jsStrOr s.aliasName s.name) = false)
    (hc : mapGet st.subscriptionsConfig s.name = none) :
    addSubscription fuel st clientId q vars sid sty = ensureClient st clientId := by
  unfold addSubscription
  rw [h]
  simp [ht, config_ensureClient, hc]

theorem addSubscription_success (fuel : Nat) (st : StatefulSubscriptions) (clientId : String)
    (q : ParsedQuery) (vars : Option (List (String × Value))) (sid sty : Option String)
    (s : SubscriptionInfo) (config : SubscriptionConfigEntry)
    (h : extractSubscriptionQueryInfo fuel q vars = .ok (some s))
    (ht : mapHas (clientStateOf st clientId).subscriptions (jsStrOr s.aliasName s.name) = false)
    (hc : mapGet st.subscriptionsConfig s.name = some config) :
    addSubscription fuel st clientId q vars sid sty =
      (let ident := jsStrOr s.aliasName s.name
       let client := clientStateOf st clientId
       let subs2 := mapSet client.subscriptions ident (trackedSubscriptionOf s config vars sid sty)
       let client2 : ClientState := { client with subscriptions := subs2, ids := idsAfterTracking client.ids sid ident }
       let st1 := ensureClient st clientId
       { st1 with clients := mapSet st1.clients clientId client2 }) := by
  unfold addSubscription
  rw [h]
  simp [ht, config_ensureClient, hc]

theorem updateSubscriptionState_unknownClient (st : StatefulSubscriptions) (clientId : String)
    (result : List (String × Value)) (h : mapGet st.clients clientId = none) :
    updateSubscriptionState st clientId result = some (st, result) := by
  unfold updateSubscriptionState
  rw [h]

theorem updateSubscriptionState_untrackedName (st : StatefulSubscriptions) (clientId : String)
    (client : ClientState) (rn : String) (d : Value)
    (hc : mapGet st.clients clientId = some client)
    (h2 : mapGet client.subscriptions rn = none) :
    updateSubscriptionState st clientId [(rn, d)] = some (st, [(rn, d)]) := by
  unfold updateSubscriptionState extractSubscriptionResultInfo
  rw [hc]
  simp [mapGet, h2]

theorem updateSubscriptionState_sole (st : StatefulSubscriptions) (clientId : String)
    (client : ClientState) (sub : Subscription) (config : SubscriptionConfigEntry)
    (rn : String) (d kv : Value)
    (hc : mapGet st.clients clientId = some client)
    (h2 : mapGet client.subscriptions rn = some sub)
    (h3 : mapGet st.subscriptionsConfig sub.name = some config)
    (h4 : dataGetField d config.key = some kv)
    (h5 : isUndefined kv = false) :
    updateSubscriptionState st clientId [(rn, d)] =
      some (stateWithLastValue st clientId client rn sub kv,
        if sub.injectedKey then [(rn, copyWithoutField d config.key)] else [(rn, d)]) := by
  unfold updateSubscriptionState extractSubscriptionResultInfo
  rw [hc]
  simp [mapGet, h2, h3, h4, h5, mapSet]
  split <;> rfl

theorem mapGet_mem {α : Type} (m : List (String × α)) (k : String) (v : α)
    (h : mapGet m k = some v) : (k, v) ∈ m := by
  induction m with
  | nil => simp [mapGet] at h
  | cons e rest ih =>
    by_cases he : e.1 = k
    · simp only [mapGet, he, if_true, Option.some.injEq] at h
      subst he
      subst h
      exact List.mem_cons_self _ _
    · simp only [mapGet, he, if_false] at h
      exact List.mem_cons_of_mem _ (ih h)

theorem extractArgumentValueList_eq_map (vs : List ValueNode) (vars : List (String × Value)) :
    extractArgumentValueList vs vars = vs.map (fun v => extractArgumentValue v vars) := by
  induction vs with
  | nil => rfl
  | cons v rest ih => simp [extractArgumentValueList, ih]

theorem addSubscription_success_get (fuel : Nat) (st : StatefulSubscriptions) (clientId : String)
    (q : ParsedQuery) (vars : Option (List (String × Value))) (sid sty : Option String)
    (s : SubscriptionInfo) (config : SubscriptionConfigEntry)
    (h : extractSubscriptionQueryInfo fuel q vars = .ok (some s))
    (ht : mapHas (clientStateOf st clientId).subscriptions (jsStrOr s.aliasName s.name) = false)
    (hc : mapGet st.subscriptionsConfig s.name = some config) :
    mapGet (addSubscription fuel st clientId q vars sid sty).clients clientId =
      some (let ident := jsStrOr s.aliasName s.name
            let client := clientStateOf st clientId
            { client with
                subscriptions := mapSet client.subscriptions ident
                                   (trackedSubscriptionOf s config vars sid sty),
                ids := idsAfterTracking client.ids sid ident }) := by
  rw [addSubscription_success fuel st clientId q vars sid sty s config h ht hc]
  exact mapGet_mapSet_self _ _ _

theorem addSubscription_success_clientState (fuel : Nat) (st : StatefulSubscriptions)
    (clientId : String) (q : ParsedQuery) (vars : Option (List (String × Value)))
    (sid sty : Option String) (s : SubscriptionInfo) (config : SubscriptionConfigEntry)
    (h : extractSubscriptionQueryInfo fuel q vars = .ok (some s))
    (ht : mapHas (clientStateOf st clientId).subscriptions (jsStrOr s.aliasName s.name) = false)
    (hc : mapGet st.subscriptionsConfig s.name = some config) :
    clientStateOf (addSubscription fuel st clientId q vars sid sty) clientId =
      (let ident := jsStrOr s.aliasName s.name
       let client := clientStateOf st clientId
       { client with
           subscriptions := mapSet client.subscriptions ident
                              (trackedSubscriptionOf s config vars sid sty),
           ids := idsAfterTracking client.ids sid ident }) := by
  unfold clientStateOf
  rw [addSubscription_success_get fuel st clientId q vars sid sty s config h ht hc]
  rfl

theorem config_addSubscription (fuel : Nat) (st : StatefulSubscriptions) (clientId : String)
    (q : ParsedQuery) (vars : Option (List (String × Value))) (sid sty : Option String) :
    (addSubscription fuel st clientId q vars sid sty).subscriptionsConfig =
      st.subscriptionsConfig := by
  cases hq : extractSubscriptionQueryInfo fuel q vars with
  | error e =>
    cases e
    rw [addSubscription_error fuel st clientId q vars sid sty hq]
    exact config_ensureClient st clientId
  | ok o =>
    cases o with
    | none =>
      rw [addSubscription_notSubscription fuel st clientId q vars sid sty hq]
      exact config_ensureClient st clientId
    | some s =>
      by_cases ht : mapHas (clientStateOf st clientId).subscriptions (jsStrOr s.aliasName s.name)
      · rw [addSubscription_tracked fuel st clientId q vars sid sty s hq ht]
        exact config_ensureClient st clientId
      · have htf : mapHas (clientStateOf st clientId).subscriptions
            (jsStrOr s.aliasName s.name) = false := by simpa using ht
        cases hc : mapGet st.subscriptionsConfig s.name with
        | none =>
          rw [addSubscription_unconfigured fuel st clientId q vars sid sty s hq htf hc]
          exact config_ensureClient st clientId
        | some config =>
          rw [addSubscription_success fuel st clientId q vars sid sty s config hq htf hc]
          exact config_ensureClient st clientId

theorem ConfiguredInv_setClient (st : StatefulSubscriptions) (clientId : String)
    (c2 : ClientState) (hInv : ConfiguredInv st)
    (hc2 : ∀ f ∈ c2.subscriptions, mapHas st.subscriptionsConfig f.2.name = true) :
    ConfiguredInv { st with clients := mapSet st.clients clientId c2 } := by
  intro e he f hf
  rcases mem_mapSet _ _ _ _ he with he' | he'
  · exact hInv e he' f hf
  · subst he'
    exact hc2 f hf

theorem clientStateOf_subscriptions_configured (st : StatefulSubscriptions) (clientId : String)
    (hInv : ConfiguredInv st) :
    ∀ f ∈ (clientStateOf st clientId).subscriptions,
      mapHas st.subscriptionsConfig f.2.name = true := by
  unfold clientStateOf
  cases h : mapGet st.clients clientId with
  | none => intro f hf; simp [createClientState] at hf
  | some c =>
    intro f hf
    exact hInv (clientId, c) (mapGet_mem _ _ _ h) f hf

theorem ConfiguredInv_ensureClient (st : StatefulSubscriptions) (clientId : String)
    (hInv : ConfiguredInv st) : ConfiguredInv (ensureClient st clientId) := by
  unfold ensureClient
  cases h : mapGet st.clients clientId with
  | some c => exact hInv
  | none =>
    apply ConfiguredInv_setClient st clientId createClientState hInv
    intro f hf
    simp [createClientState] at hf

theorem if_length_pos_eq_if_isEmpty (args : List String) (x : String) :
    (if args.length > 0 then x else "") = (if args.isEmpty then "" else x) := by
  cases args <;> simp

/-!
Claim theorems.
-/

/-- C2: for every tracked subscription, `buildRecoveryQuery` returns
exactly the string `subscription \x7b ` followed by the alias prefix
`<alias>: ` only if an alias was recorded, then the root name, then a
parenthesized argument list present only when at least one argument is
emitted — the key argument `<key>: <JSON(lastValue)>` first and only when
`lastValue` is neither null nor absent, followed by each fixed argument
`<name>: <JSON(value)>` in configured order, all separated by `, ` —
then ` \x7b ` plus the tracked (possibly key-injected) fields joined by
`, ` plus ` \x7d \x7d` (recorded aliases are always nonempty strings, as
registration drops falsy aliases). -/
theorem c2_recovery_query_shape (s : Subscription) (h : s.aliasName ≠ some "") :
    buildRecoveryQuery s = claimRecoveryQuery s := by
  unfold buildRecoveryQuery claimRecoveryQuery
  cases hsa : s.aliasName with
  | none =>
    cases hargs : s.options.args with
    | none => cases s.lastValue <;> simp [hargs, if_length_pos_eq_if_isEmpty]
    | some fa =>
      cases fa <;> cases s.lastValue <;> simp [hargs, if_length_pos_eq_if_isEmpty]
  | some a =>
    have hne : a ≠ "" := by
      intro he
      exact h (by rw [hsa, he])
    cases hargs : s.options.args with
    | none => cases s.lastValue <;> simp [hargs, hne, if_length_pos_eq_if_isEmpty]
    | some fa =>
      cases fa <;> cases s.lastValue <;> simp [hargs, hne, if_length_pos_eq_if_isEmpty]

/-- Witness for C2 at the specification's serialization example. -/
theorem c2_recovery_query_shape_witness :
    buildRecoveryQuery exSubFixed = claimRecoveryQuery exSubFixed ∧
    buildRecoveryQuery exSubFixed =
      "subscription \x7b onItems(offset: 42, filter: \"important\", limit: 10) \x7b id, offset, data \x7d \x7d" :=
  ⟨c2_recovery_query_shape exSubFixed (fun h => Option.noConfusion h), rfl⟩

/-- C3: for a known client, `restoreSubscriptions` sends exactly one
connection-init message carrying the stored init payload, then one
message per tracked subscription in insertion order — regardless of its
`lastValue` — with its recorded message type and transport id and the
`buildRecoveryQuery` text; for an unknown client nothing is sent. -/
theorem c3_restore_messages :
    (∀ st cid, mapGet st.clients cid = none → restoreSubscriptions st cid = []) ∧
    (∀ st cid client, mapGet st.clients cid = some client →
      restoreSubscriptions st cid =
        SentMessage.connectionInit client.init ::
          client.subscriptions.map
            (fun e => SentMessage.operationMessage e.2.id e.2.type (buildRecoveryQuery e.2))) := by
  constructor
  · intro st cid h
    unfold restoreSubscriptions
    rw [h]
  · intro st cid client h
    unfold restoreSubscriptions
    rw [h]

/-- Witness for C3 at the registered example state. -/
theorem c3_restore_messages_witness :
    restoreSubscriptions exStFull "c" =
      SentMessage.connectionInit (clientStateOf exStFull "c").init ::
        (clientStateOf exStFull "c").subscriptions.map
          (fun e => SentMessage.operationMessage e.2.id e.2.type (buildRecoveryQuery e.2)) :=
  c3_restore_messages.2 exStFull "c" (clientStateOf exStFull "c") rfl

/-- C6: `registerSubscription` never propagates an error: the parse error
of a malformed query text is an `Except.error` of the introspector, and
on any erroring introspection `addSubscription` returns the prior state
with at most a freshly created empty client state — no subscription is
created, and no other client is touched. -/
theorem c6_parse_error_swallowed :
    (∀ fuel vars, extractSubscriptionQueryInfo fuel .malformed vars = .error ()) ∧
    (∀ fuel st cid q vars sid sty,
      extractSubscriptionQueryInfo fuel q vars = .error () →
      addSubscription fuel st cid q vars sid sty = ensureClient st cid ∧
      mapGet (addSubscription fuel st cid q vars sid sty).clients cid =
        some (clientStateOf st cid) ∧
      (mapGet st.clients cid = none → clientStateOf st cid = createClientState) ∧
      (∀ cid', cid' ≠ cid →
        mapGet (addSubscription fuel st cid q vars sid sty).clients cid' =
          mapGet st.clients cid')) := by
  refine ⟨fun fuel vars => rfl, fun fuel st cid q vars sid sty h => ?_⟩
  have he := addSubscription_error fuel st cid q vars sid sty h
  refine ⟨he, ?_, ?_, ?_⟩
  · rw [he]
    exact clients_ensureClient_get st cid
  · intro hn
    unfold clientStateOf
    rw [hn]
    rfl
  · intro cid' hne
    rw [he]
    exact clients_ensureClient_ne st cid cid' hne

/-- Witness for C6: a malformed query against the example registry. -/
theorem c6_parse_error_swallowed_witness :
    addSubscription 10 exSt0 "c" .malformed none none none = ensureClient exSt0 "c" ∧
    mapGet (addSubscription 10 exSt0 "c" .malformed none none none).clients "c" =
      some createClientState :=
  ⟨(c6_parse_error_swallowed.2 10 exSt0 "c" .malformed none none none rfl).1,
   (c6_parse_error_swallowed.2 10 exSt0 "c" .malformed none none none rfl).2.1⟩

/-- Counterexample to C4 as stated: for the query `subscription \x7b
onItems(offset: 0) \x7b id offset \x7d \x7d` the extracted params bind
the key `offset` to `0`, yet the tracked subscription's initial
`lastValue` is `null`, not `0` — the source computes
`s.params?.[config.key] || null` and `0` is falsy. -/
theorem c4_counterexample_zero_param :
    extractSubscriptionQueryInfo 10 exDocZero none = .ok (some exInfoZero) ∧
    exInfoZero.params = [("offset", Value.vint 0)] ∧
    (mapGet (clientStateOf (addSubscription 10 exSt0 "c" exDocZero none none none) "c").subscriptions
        "onItems").map (fun sub => sub.lastValue) = some Value.vnull ∧
    Value.vnull ≠ Value.vint 0 :=
  ⟨rfl, rfl, rfl, fun h => Value.noConfusion h⟩

/-- C4 amended: the initial `lastValue` of a freshly tracked subscription
is the `lastValue` entry of the variables mapping when present;
otherwise, the params entry under the descriptor's key *when that value
is JavaScript-truthy*; a falsy params value (such as 0, false or the
empty string) or an absent entry yields null. -/
theorem c4_initial_last_value_amended :
    (∀ fuel st cid q vars sid sty s config,
      extractSubscriptionQueryInfo fuel q vars = .ok (some s) →
      mapHas (clientStateOf st cid).subscriptions (jsStrOr s.aliasName s.name) = false →
      mapGet st.subscriptionsConfig s.name = some config →
      (mapGet (clientStateOf (addSubscription fuel st cid q vars sid sty) cid).subscriptions
          (jsStrOr s.aliasName s.name)).map (fun sub => sub.lastValue) =
        some (initialLastValue s config vars)) ∧
    (∀ s config vs v, mapGet vs "lastValue" = some v →
      initialLastValue s config (some vs) = v) ∧
    (∀ s config vs p, mapHas vs "lastValue" = false →
      mapGet s.params config.key = some p → jsTruthy p = true →
      initialLastValue s config (some vs) = p) ∧
    (∀ s config p, mapGet s.params config.key = some p → jsTruthy p = true →
      initialLastValue s config none = p) ∧
    (∀ s config vs p, mapHas vs "lastValue" = false →
      mapGet s.params config.key = some p → jsTruthy p = false →
      initialLastValue s config (some vs) = .vnull) ∧
    (∀ s config p, mapGet s.params config.key = some p → jsTruthy p = false →
      initialLastValue s config none = .vnull) ∧
    (∀ s config vs, mapHas vs "lastValue" = false →
      mapGet s.params config.key = none → initialLastValue s config (some vs) = .vnull) ∧
    (∀ s config, mapGet s.params config.key = none →
      initialLastValue s config none = .vnull) := by
  refine ⟨?_, ?_, ?_, ?_, ?_, ?_, ?_, ?_⟩
  · intro fuel st cid q vars sid sty s config h ht hc
    rw [addSubscription_success_clientState fuel st cid q vars sid sty s config h ht hc]
    simp [mapGet_mapSet_self, trackedSubscriptionOf]
  · intro s config vs v hv
    simp [initialLastValue, mapHas, hv]
  · intro s config vs p hlv hp htr
    simp [initialLastValue, hlv, hp, jsOrNull, htr]
  · intro s config p hp htr
    simp [initialLastValue, hp, jsOrNull, htr]
  · intro s config vs p hlv hp htr
    simp [initialLastValue, hlv, hp, jsOrNull, htr]
  · intro s config p hp htr
    simp [initialLastValue, hp, jsOrNull, htr]
  · intro s config vs hlv hp
    simp [initialLastValue, hlv, hp, jsOrNull]
  · intro s config hp
    simp [initialLastValue, hp, jsOrNull]

/-- Witness for the amended C4: a falsy param (`offset = 0`) yields null,
a truthy one (`offset = 5`) is kept, and an explicit `lastValue` variable
binding of `0` is kept verbatim. -/
theorem c4_initial_last_value_amended_witness :
    initialLastValue exInfoZero exCfgOffset none = Value.vnull ∧
    initialLastValue exInfoFive exCfgOffset none = Value.vint 5 ∧
    initialLastValue exInfoZero exCfgOffset (some [("lastValue", Value.vint 0)]) =
      Value.vint 0 := by
  have h := c4_initial_last_value_amended
  exact ⟨h.2.2.2.2.2.1 exInfoZero exCfgOffset (Value.vint 0) rfl rfl,
         h.2.2.2.1 exInfoFive exCfgOffset (Value.vint 5) rfl rfl,
         h.2.1 exInfoZero exCfgOffset [("lastValue", Value.vint 0)] (Value.vint 0) rfl⟩

/-- C9: the introspector's argument-value resolution — integers parsed
from integer literals, floats parsed from float literals, strings and
booleans verbatim, null literals to null, lists element-wise, objects
key-wise, variable references resolved through the variables mapping
(absent or undefined bindings to null), unrecognized kinds to null; a
root field without arguments yields an empty (present) params mapping. -/
theorem c9_argument_value_resolution :
    (∀ lit vars, extractArgumentValue (.intValue lit) vars = .vint (parseIntLit lit)) ∧
    (∀ lit vars, extractArgumentValue (.floatValue lit) vars = .vfloat lit) ∧
    (∀ s vars, extractArgumentValue (.stringValue s) vars = .vstr s) ∧
    (∀ b vars, extractArgumentValue (.booleanValue b) vars = .vbool b) ∧
    (∀ vars, extractArgumentValue .nullValue vars = .vnull) ∧
    (∀ vs vars, extractArgumentValue (.listValue vs) vars =
      .vlist (vs.map (fun v => extractArgumentValue v vars))) ∧
    (∀ fs vars, extractArgumentValue (.objectValue fs) vars =
      .vobj (extractObjectArguments fs vars)) ∧
    (∀ n v vars, mapGet vars n = some v → v ≠ .vundefined →
      extractArgumentValue (.variableNode n) vars = v) ∧
    (∀ n vars, mapGet vars n = none ∨ mapGet vars n = some .vundefined →
      extractArgumentValue (.variableNode n) vars = .vnull) ∧
    (∀ vars, extractArgumentValue .otherValue vars = .vnull) ∧
    (∀ vars, extractArguments [] vars = []) ∧
    (∀ fuel al nm ss moreSels defs2 vars,
      extractSubscriptionQueryInfo fuel
          (.parsed (.operationDefinition ⟨.subscription, .field al nm [] ss :: moreSels⟩ :: defs2))
          vars =
        .ok (some { name := nm, fields := extractFields fuel ss (fragmentsOf defs2),
                    aliasName := al, params := [] })) := by
  refine ⟨fun lit vars => rfl, fun lit vars => rfl, fun s vars => rfl, fun b vars => rfl,
    fun vars => rfl, ?_, fun fs vars => rfl, ?_, ?_, fun vars => rfl, fun vars => rfl, ?_⟩
  · intro vs vars
    simp [extractArgumentValue, extractArgumentValueList_eq_map]
  · intro n v vars h hv
    cases v with
    | vundefined => exact absurd rfl hv
    | vnull => simp [extractArgumentValue, extractVariable, h]
    | vbool b => simp [extractArgumentValue, extractVariable, h]
    | vint m => simp [extractArgumentValue, extractVariable, h]
    | vfloat lit => simp [extractArgumentValue, extractVariable, h]
    | vstr t => simp [extractArgumentValue, extractVariable, h]
    | vlist xs => simp [extractArgumentValue, extractVariable, h]
    | vobj fs => simp [extractArgumentValue, extractVariable, h]
  · intro n vars h
    rcases h with h | h <;> simp [extractArgumentValue, extractVariable, h]
  · intro fuel al nm ss moreSels defs2 vars
    rfl

/-- Witness for C9's variable-resolution clauses: a bound variable, an
absent binding and an undefined binding. -/
theorem c9_argument_value_resolution_witness :
    extractArgumentValue (.variableNode "x") [("x", Value.vint 3)] = Value.vint 3 ∧
    extractArgumentValue (.variableNode "y") [("x", Value.vint 3)] = Value.vnull ∧
    extractArgumentValue (.variableNode "z") [("z", Value.vundefined)] = Value.vnull := by
  have h := c9_argument_value_resolution
  exact ⟨h.2.2.2.2.2.2.2.1 "x" (Value.vint 3) _ rfl (fun hh => Value.noConfusion hh),
         h.2.2.2.2.2.2.2.2.1 "y" _ (Or.inl rfl),
         h.2.2.2.2.2.2.2.2.1 "z" _ (Or.inr rfl)⟩

/-- C7: registration is idempotent — running the same registration twice
yields the state of running it once; a registration whose identity is
already tracked for an existing client is a strict no-op; and a
successful registration leaves exactly one tracked entry under the
identity. -/
theorem c7_registration_idempotent :
    (∀ fuel st cid q vars sid sty,
      addSubscription fuel (addSubscription fuel st cid q vars sid sty) cid q vars sid sty =
        addSubscription fuel st cid q vars sid sty) ∧
    (∀ fuel st cid q vars sid sty client s,
      mapGet st.clients cid = some client →
      extractSubscriptionQueryInfo fuel q vars = .ok (some s) →
      mapHas client.subscriptions (jsStrOr s.aliasName s.name) = true →
      addSubscription fuel st cid q vars sid sty = st) ∧
    (∀ fuel st cid q vars sid sty s config,
      extractSubscriptionQueryInfo fuel q vars = .ok (some s) →
      mapHas (clientStateOf st cid).subscriptions (jsStrOr s.aliasName s.name) = false →
      mapGet st.subscriptionsConfig s.name = some config →
      countKey (clientStateOf (addSubscription fuel st cid q vars sid sty) cid).subscriptions
        (jsStrOr s.aliasName s.name) = 1) := by
  refine ⟨?_, ?_, ?_⟩
  · intro fuel st cid q vars sid sty
    cases hq : extractSubscriptionQueryInfo fuel q vars with
    | error e =>
      cases e
      rw [addSubscription_error fuel (addSubscription fuel st cid q vars sid sty) cid q vars sid
            sty hq,
          addSubscription_error fuel st cid q vars sid sty hq, ensureClient_idem]
    | ok o =>
      cases o with
      | none =>
        rw [addSubscription_notSubscription fuel (addSubscription fuel st cid q vars sid sty) cid
              q vars sid sty hq,
            addSubscription_notSubscription fuel st cid q vars sid sty hq, ensureClient_idem]
      | some s =>
        by_cases ht : mapHas (clientStateOf st cid).subscriptions (jsStrOr s.aliasName s.name) = true
        · have h1 := addSubscription_tracked fuel st cid q vars sid sty s hq ht
          have ht2 : mapHas (clientStateOf (addSubscription fuel st cid q vars sid sty) cid).subscriptions
              (jsStrOr s.aliasName s.name) = true := by
            rw [h1, clientStateOf_ensureClient]
            exact ht
          rw [addSubscription_tracked fuel (addSubscription fuel st cid q vars sid sty) cid q vars
                sid sty s hq ht2,
              h1, ensureClient_idem]
        · have htf : mapHas (clientStateOf st cid).subscriptions (jsStrOr s.aliasName s.name) = false := by
            simpa using ht
          cases hc : mapGet st.subscriptionsConfig s.name with
          | none =>
            have h1 := addSubscription_unconfigured fuel st cid q vars sid sty s hq htf hc
            have htf2 : mapHas (clientStateOf (addSubscription fuel st cid q vars sid sty) cid).subscriptions
                (jsStrOr s.aliasName s.name) = false := by
              rw [h1, clientStateOf_ensureClient]
              exact htf
            have hc2 : mapGet (addSubscription fuel st cid q vars sid sty).subscriptionsConfig s.name = none := by
              rw [config_addSubscription]
              exact hc
            rw [addSubscription_unconfigured fuel (addSubscription fuel st cid q vars sid sty) cid
                  q vars sid sty s hq htf2 hc2,
                h1, ensureClient_idem]
          | some config =>
            have hget := addSubscription_success_get fuel st cid q vars sid sty s config hq htf hc
            have hcs := addSubscription_success_clientState fuel st cid q vars sid sty s config hq
              htf hc
            have ht2 : mapHas (clientStateOf (addSubscription fuel st cid q vars sid sty) cid).subscriptions
                (jsStrOr s.aliasName s.name) = true := by
              rw [hcs]
              exact mapHas_mapSet_self _ _ _
            rw [addSubscription_tracked fuel (addSubscription fuel st cid q vars sid sty) cid q
                  vars sid sty s hq ht2]
            exact ensureClient_of_some _ _ _ hget
  · intro fuel st cid q vars sid sty client s hcl hq ht
    have hcs : clientStateOf st cid = client := by
      unfold clientStateOf
      rw [hcl]
      rfl
    have h1 := addSubscription_tracked fuel st cid q vars sid sty s hq (by rw [hcs]; exact ht)
    rw [h1]
    exact ensureClient_of_some st cid client hcl
  · intro fuel st cid q vars sid sty s config hq ht hc
    rw [addSubscription_success_clientState fuel st cid q vars sid sty s config hq ht hc]
    exact countKey_mapSet_of_not_has _ _ _ ht

/-- Witness for C7: a second registration of the already tracked example
query is a no-op, and the tracked entry is unique. -/
theorem c7_registration_idempotent_witness :
    addSubscription 10 exStFull "c" exDocFull none none none = exStFull ∧
    countKey (clientStateOf exStFull "c").subscriptions "onItems" = 1 := by
  have h := c7_registration_idempotent
  exact ⟨h.2.1 10 exStFull "c" exDocFull none none none _ _ rfl rfl rfl,
         h.2.2 10 exSt0 "c" exDocFull none none none _ _ rfl rfl rfl⟩

theorem clientStateOf_stateWithLastValue (st : StatefulSubscriptions) (clientId : String)
    (client : ClientState) (rn : String) (sub : Subscription) (kv : Value) :
    clientStateOf (stateWithLastValue st clientId client rn sub kv) clientId =
      { client with subscriptions := mapSet client.subscriptions rn
                                       ({ sub with lastValue := kv }) } := by
  unfold clientStateOf stateWithLastValue
  rw [mapGet_mapSet_self]
  rfl

/-- C1: a registration whose descriptor key is absent from the extracted
fields appends the key to the tracked fields and flags `injectedKey`;
thereafter an `observeResult` whose payload's sole root key matches the
subscription's identity and whose data object defines the key field sets
the tracked `lastValue` to that value and replaces the payload's root
entry by a data object that no longer contains the key field. -/
theorem c1_key_injection_round_trip :
    (∀ fuel st cid q vars sid sty s config,
      extractSubscriptionQueryInfo fuel q vars = .ok (some s) →
      mapHas (clientStateOf st cid).subscriptions (jsStrOr s.aliasName s.name) = false →
      mapGet st.subscriptionsConfig s.name = some config →
      s.fields.contains config.key = false →
      (mapGet (clientStateOf (addSubscription fuel st cid q vars sid sty) cid).subscriptions
          (jsStrOr s.aliasName s.name)).map (fun sub => (sub.fields, sub.injectedKey)) =
        some (s.fields ++ [config.key], true)) ∧
    (∀ st cid client sub config ident fs kv,
      mapGet st.clients cid = some client →
      mapGet client.subscriptions ident = some sub →
      sub.injectedKey = true →
      mapGet st.subscriptionsConfig sub.name = some config →
      mapGet fs config.key = some kv →
      isUndefined kv = false →
      updateSubscriptionState st cid [(ident, .vobj fs)] =
        some (stateWithLastValue st cid client ident sub kv,
          [(ident, .vobj (mapDelete fs config.key))]) ∧
      (mapGet (clientStateOf (stateWithLastValue st cid client ident sub kv) cid).subscriptions
          ident).map (fun e => e.lastValue) = some kv ∧
      mapGet (mapDelete fs config.key) config.key = none) := by
  constructor
  · intro fuel st cid q vars sid sty s config h ht hc hki
    have hki' : config.key ∉ s.fields := by simpa using hki
    rw [addSubscription_success_clientState fuel st cid q vars sid sty s config h ht hc]
    simp [mapGet_mapSet_self, trackedSubscriptionOf, hki, hki']
  · intro st cid client sub config ident fs kv hc h2 hik h3 hkv h5
    have h4 : dataGetField (.vobj fs) config.key = some kv := by
      simp [dataGetField, hkv]
    have hu := updateSubscriptionState_sole st cid client sub config ident (.vobj fs) kv hc h2
      h3 h4 h5
    rw [hik] at hu
    refine ⟨by simpa [copyWithoutField] using hu, ?_, mapGet_mapDelete_self _ _⟩
    rw [clientStateOf_stateWithLastValue]
    simp [mapGet_mapSet_self]

/-- Witness for C1: registering `exDocNoKey` injects `offset`, and
observing `\x7b onItems: \x7b id: 'x', offset: 7 \x7d \x7d` records 7 and
strips `offset` from the payload. -/
theorem c1_key_injection_round_trip_witness :
    (mapGet (clientStateOf exStNoKey "c").subscriptions "onItems").map
        (fun sub => (sub.fields, sub.injectedKey)) = some (["id", "offset"], true) ∧
    ∃ st2, updateSubscriptionState exStNoKey "c"
          [("onItems", .vobj [("id", .vstr "x"), ("offset", .vint 7)])] =
        some (st2, [("onItems", Value.vobj [("id", Value.vstr "x")])]) ∧
      (mapGet (clientStateOf st2 "c").subscriptions "onItems").map (fun e => e.lastValue) =
        some (Value.vint 7) := by
  have h := c1_key_injection_round_trip
  constructor
  · exact h.1 10 exSt0 "c" exDocNoKey none none none _ _ rfl rfl rfl rfl
  · obtain ⟨h1, h2, h3⟩ := h.2 exStNoKey "c" _ _ _ "onItems"
      [("id", .vstr "x"), ("offset", .vint 7)] (Value.vint 7) rfl rfl rfl rfl rfl rfl
    exact ⟨_, h1, h2⟩

/-- C5: a registration whose single root field carries a (nonempty) alias
tracks the subscription under the alias with `rootName` the un-aliased
field name and the descriptor resolved by that name (an alias-only
configured name is never tracked); `observeResult` matches payloads keyed
by the alias and ignores payloads keyed by the (untracked) root name. -/
theorem c5_alias_identity :
    (∀ fuel st cid q vars sid sty s a config,
      extractSubscriptionQueryInfo fuel q vars = .ok (some s) →
      s.aliasName = some a → a ≠ "" →
      mapHas (clientStateOf st cid).subscriptions a = false →
      mapGet st.subscriptionsConfig s.name = some config →
      (mapGet (clientStateOf (addSubscription fuel st cid q vars sid sty) cid).subscriptions
          a).map (fun sub => (sub.name, sub.options.name, sub.options.key, sub.aliasName)) =
        some (s.name, s.name, config.key, some a) ∧
      (a ≠ s.name →
        mapGet (clientStateOf (addSubscription fuel st cid q vars sid sty) cid).subscriptions
            s.name =
          mapGet (clientStateOf st cid).subscriptions s.name)) ∧
    (∀ fuel st cid q vars sid sty s a,
      extractSubscriptionQueryInfo fuel q vars = .ok (some s) →
      s.aliasName = some a → a ≠ "" →
      mapHas (clientStateOf st cid).subscriptions a = false →
      mapGet st.subscriptionsConfig s.name = none →
      addSubscription fuel st cid q vars sid sty = ensureClient st cid) ∧
    (∀ st cid client sub config a fs kv,
      mapGet st.clients cid = some client →
      mapGet client.subscriptions a = some sub →
      mapGet st.subscriptionsConfig sub.name = some config →
      mapGet fs config.key = some kv →
      isUndefined kv = false →
      ∃ p2, updateSubscriptionState st cid [(a, .vobj fs)] =
          some (stateWithLastValue st cid client a sub kv, p2) ∧
        (mapGet (clientStateOf (stateWithLastValue st cid client a sub kv) cid).subscriptions
            a).map (fun e => e.lastValue) = some kv) ∧
    (∀ st cid client rn d,
      mapGet st.clients cid = some client →
      mapGet client.subscriptions rn = none →
      updateSubscriptionState st cid [(rn, d)] = some (st, [(rn, d)])) := by
  refine ⟨?_, ?_, ?_, ?_⟩
  · intro fuel st cid q vars sid sty s a config hq hsa hne ht hc
    have hid : jsStrOr s.aliasName s.name = a := by simp [jsStrOr, hsa, hne]
    have ht' : mapHas (clientStateOf st cid).subscriptions (jsStrOr s.aliasName s.name) = false := by
      rw [hid]
      exact ht
    have hcs := addSubscription_success_clientState fuel st cid q vars sid sty s config hq ht' hc
    rw [hcs]
    constructor
    · simp only [hid]
      simp [mapGet_mapSet_self, trackedSubscriptionOf, hsa, hne]
    · intro hns
      simp only [hid]
      exact mapGet_mapSet_ne _ _ _ _ (Ne.symm hns)
  · intro fuel st cid q vars sid sty s a hq hsa hne ht hc
    have hid : jsStrOr s.aliasName s.name = a := by simp [jsStrOr, hsa, hne]
    have ht' : mapHas (clientStateOf st cid).subscriptions (jsStrOr s.aliasName s.name) = false := by
      rw [hid]
      exact ht
    exact addSubscription_unconfigured fuel st cid q vars sid sty s hq ht' hc
  · intro st cid client sub config a fs kv hc h2 h3 hkv h5
    have h4 : dataGetField (.vobj fs) config.key = some kv := by
      simp [dataGetField, hkv]
    have hu := updateSubscriptionState_sole st cid client sub config a (.vobj fs) kv hc h2 h3
      h4 h5
    refine ⟨_, hu, ?_⟩
    rw [clientStateOf_stateWithLastValue]
    simp [mapGet_mapSet_self]
  · intro st cid client rn d hc h2
    exact updateSubscriptionState_untrackedName st cid client rn d hc h2

/-- Witness for C5 at the aliased example (`Feed: onItems`): tracked
under `Feed` with root name `onItems`; a payload keyed `onItems` is
ignored while a payload keyed `Feed` updates the cursor. -/
theorem c5_alias_identity_witness :
    (mapGet (clientStateOf exStAlias "c").subscriptions "Feed").map
        (fun sub => (sub.name, sub.options.name, sub.options.key, sub.aliasName)) =
      some ("onItems", "onItems", "offset", some "Feed") ∧
    mapGet (clientStateOf exStAlias "c").subscriptions "onItems" = none ∧
    updateSubscriptionState exStAlias "c" [("onItems", Value.vobj [("offset", Value.vint 9)])] =
      some (exStAlias, [("onItems", Value.vobj [("offset", Value.vint 9)])]) ∧
    ∃ st2 p2,
      updateSubscriptionState exStAlias "c" [("Feed", Value.vobj [("offset", Value.vint 9)])] =
        some (st2, p2) ∧
      (mapGet (clientStateOf st2 "c").subscriptions "Feed").map (fun e => e.lastValue) =
        some (Value.vint 9) := by
  have h := c5_alias_identity
  refine ⟨(h.1 10 exSt0 "c" exDocAlias none none none _ "Feed" _ rfl rfl (by decide) rfl rfl).1,
    rfl, h.2.2.2 exStAlias "c" _ "onItems" _ rfl rfl, ?_⟩
  obtain ⟨p2, h1, h2⟩ := h.2.2.1 exStAlias "c" _ _ _ "Feed" [("offset", Value.vint 9)]
    (Value.vint 9) rfl rfl rfl rfl rfl
  exact ⟨_, p2, h1, h2⟩

/-- C10: the strip step installs a fresh shallow copy of the data object
without the key field at the payload's root key; the copy agrees with the
original on every other field, and the original object still contains the
key field. -/
theorem c10_strip_shallow_copy (st : StatefulSubscriptions) (cid : String)
    (client : ClientState) (sub : Subscription) (config : SubscriptionConfigEntry)
    (rn : String) (fs : List (String × Value)) (kv : Value)
    (hc : mapGet st.clients cid = some client)
    (h2 : mapGet client.subscriptions rn = some sub)
    (hik : sub.injectedKey = true)
    (h3 : mapGet st.subscriptionsConfig sub.name = some config)
    (hkv : mapGet fs config.key = some kv)
    (h5 : isUndefined kv = false) :
    updateSubscriptionState st cid [(rn, .vobj fs)] =
      some (stateWithLastValue st cid client rn sub kv,
        [(rn, .vobj (mapDelete fs config.key))]) ∧
    mapGet (mapDelete fs config.key) config.key = none ∧
    (∀ f, f ≠ config.key → mapGet (mapDelete fs config.key) f = mapGet fs f) ∧
    mapGet fs config.key = some kv := by
  have h4 : dataGetField (.vobj fs) config.key = some kv := by
    simp [dataGetField, hkv]
  have hu := updateSubscriptionState_sole st cid client sub config rn (.vobj fs) kv hc h2 h3
    h4 h5
  rw [hik] at hu
  exact ⟨by simpa [copyWithoutField] using hu, mapGet_mapDelete_self _ _,
    fun f hf => mapGet_mapDelete_ne _ _ _ hf, hkv⟩

/-- Witness for C10: the observed payload's root object is replaced by a
copy without `offset`, the copy keeps `id`, and the original object still
holds `offset = 7`. -/
theorem c10_strip_shallow_copy_witness :
    (∃ st2, updateSubscriptionState exStNoKey "c"
        [("onItems", Value.vobj [("id", Value.vstr "x"), ("offset", Value.vint 7)])] =
      some (st2, [("onItems", Value.vobj [("id", Value.vstr "x")])])) ∧
    mapGet [("id", Value.vstr "x")] "offset" = (none : Option Value) ∧
    mapGet [("id", Value.vstr "x"), ("offset", Value.vint 7)] "id" = some (Value.vstr "x") ∧
    mapGet [("id", Value.vstr "x"), ("offset", Value.vint 7)] "offset" =
      some (Value.vint 7) := by
  obtain ⟨h1, h2, h3, h4⟩ := c10_strip_shallow_copy exStNoKey "c" _ _ _ "onItems"
    [("id", Value.vstr "x"), ("offset", Value.vint 7)] (Value.vint 7) rfl rfl rfl rfl rfl rfl
  exact ⟨⟨_, h1⟩, h2, h3 "id" (by decide), h4⟩

theorem ConfiguredInv_stateWithLastValue (st : StatefulSubscriptions) (cid : String)
    (client : ClientState) (rn : String) (sub : Subscription) (kv : Value)
    (hInv : ConfiguredInv st)
    (hc : mapGet st.clients cid = some client)
    (hcfg : mapHas st.subscriptionsConfig sub.name = true) :
    ConfiguredInv (stateWithLastValue st cid client rn sub kv) := by
  unfold stateWithLastValue
  apply ConfiguredInv_setClient st cid _ hInv
  intro f hf
  rcases mem_mapSet _ _ _ _ hf with hf' | hf'
  · exact hInv (cid, client) (mapGet_mem _ _ _ hc) f hf'
  · subst hf'
    exact hcfg

/-- C8: a registration for an unconfigured root-field name creates no
tracked entry, and the configured-descriptor invariant — every tracked
subscription's root name has a configured descriptor — holds of a fresh
registry and is preserved by every operation. -/
theorem c8_configured_invariant :
    (∀ fuel st cid q vars sid sty s,
      extractSubscriptionQueryInfo fuel q vars = .ok (some s) →
      mapGet st.subscriptionsConfig s.name = none →
      addSubscription fuel st cid q vars sid sty = ensureClient st cid) ∧
    (∀ opts, ConfiguredInv (makeStatefulSubscriptions opts)) ∧
    (∀ st cid payload, ConfiguredInv st → ConfiguredInv (addSubscriptionInit st cid payload)) ∧
    (∀ fuel st cid q vars sid sty, ConfiguredInv st →
      ConfiguredInv (addSubscription fuel st cid q vars sid sty)) ∧
    (∀ st cid result st2 p2, ConfiguredInv st →
      updateSubscriptionState st cid result = some (st2, p2) → ConfiguredInv st2) ∧
    (∀ st cid sid, ConfiguredInv st → ConfiguredInv (removeSubscription st cid sid)) ∧
    (∀ st cid, ConfiguredInv st → ConfiguredInv (removeAllSubscriptions st cid)) := by
  refine ⟨?_, ?_, ?_, ?_, ?_, ?_, ?_⟩
  · intro fuel st cid q vars sid sty s hq hc
    by_cases ht : mapHas (clientStateOf st cid).subscriptions (jsStrOr s.aliasName s.name) = true
    · exact addSubscription_tracked fuel st cid q vars sid sty s hq ht
    · exact addSubscription_unconfigured fuel st cid q vars sid sty s hq (by simpa using ht) hc
  · intro opts e he f hf
    simp [makeStatefulSubscriptions] at he
  · intro st cid payload hInv
    unfold addSubscriptionInit
    apply ConfiguredInv_setClient _ _ _ (ConfiguredInv_ensureClient st cid hInv)
    intro f hf
    rw [config_ensureClient]
    exact clientStateOf_subscriptions_configured st cid hInv f hf
  · intro fuel st cid q vars sid sty hInv
    cases hq : extractSubscriptionQueryInfo fuel q vars with
    | error e =>
      cases e
      rw [addSubscription_error fuel st cid q vars sid sty hq]
      exact ConfiguredInv_ensureClient st cid hInv
    | ok o =>
      cases o with
      | none =>
        rw [addSubscription_notSubscription fuel st cid q vars sid sty hq]
        exact ConfiguredInv_ensureClient st cid hInv
      | some s =>
        by_cases ht : mapHas (clientStateOf st cid).subscriptions (jsStrOr s.aliasName s.name) = true
        · rw [addSubscription_tracked fuel st cid q vars sid sty s hq ht]
          exact ConfiguredInv_ensureClient st cid hInv
        · have htf : mapHas (clientStateOf st cid).subscriptions (jsStrOr s.aliasName s.name) = false := by
            simpa using ht
          cases hc : mapGet st.subscriptionsConfig s.name with
          | none =>
            rw [addSubscription_unconfigured fuel st cid q vars sid sty s hq htf hc]
            exact ConfiguredInv_ensureClient st cid hInv
          | some config =>
            rw [addSubscription_success fuel st cid q vars sid sty s config hq htf hc]
            apply ConfiguredInv_setClient _ _ _ (ConfiguredInv_ensureClient st cid hInv)
            intro f hf
            rw [config_ensureClient]
            rcases mem_mapSet _ _ _ _ hf with hf' | hf'
            · exact clientStateOf_subscriptions_configured st cid hInv f hf'
            · subst hf'
              simp [trackedSubscriptionOf, mapHas, hc]
  · intro st cid result st2 p2 hInv hupd
    unfold updateSubscriptionState at hupd
    split at hupd
    · injection hupd with hpair
      injection hpair with ha hb
      subst ha
      exact hInv
    · rename_i client hcl
      split at hupd
      · injection hupd with hpair
        injection hpair with ha hb
        subst ha
        exact hInv
      · rename_i r hr
        split at hupd
        · injection hupd with hpair
          injection hpair with ha hb
          subst ha
          exact hInv
        · rename_i subscription hsub
          split at hupd
          · injection hupd with hpair
            injection hpair with ha hb
            subst ha
            exact hInv
          · rename_i config hcfg
            split at hupd
            · exact Option.noConfusion hupd
            · rename_i keyValue hdg
              split at hupd
              · injection hupd with hpair
                injection hpair with ha hb
                subst ha
                exact hInv
              · split at hupd <;>
                · injection hupd with hpair
                  injection hpair with ha hb
                  subst ha
                  exact ConfiguredInv_stateWithLastValue st cid client r.1 subscription keyValue
                    hInv hcl (by simp [mapHas, hcfg])
  · intro st cid sid hInv
    unfold removeSubscription
    split
    · exact hInv
    · split
      · exact hInv
      · rename_i client hcl
        split
        · exact hInv
        · rename_i nm hnm
          split
          · exact hInv
          · apply ConfiguredInv_setClient st cid _ hInv
            intro f hf
            exact hInv (cid, client) (mapGet_mem _ _ _ hcl) f (mem_mapDelete _ _ _ hf)
  · intro st cid hInv
    unfold removeAllSubscriptions
    split
    · exact hInv
    · apply ConfiguredInv_setClient st cid _ hInv
      intro f hf
      simp at hf

/-- Witness for C8: registering for the unconfigured name `onUsers`
creates nothing, and the invariant holds of the example state. -/
theorem c8_configured_invariant_witness :
    addSubscription 10 exSt0 "c"
        (.parsed [.operationDefinition
          ⟨.subscription, [.field none "onUsers" [] (some [exSelId])]⟩])
        none none none =
      ensureClient exSt0 "c" ∧
    ConfiguredInv (addSubscription 10 exSt0 "c" exDocFull none none none) := by
  have h := c8_configured_invariant
  refine ⟨h.1 10 exSt0 "c" _ none none none _ rfl rfl, ?_⟩
  apply h.2.2.2.1 10 exSt0 "c" exDocFull none none none
  intro e he f hf
  simp [exSt0, makeStatefulSubscriptions] at he

end Gq
